import Mathlib

/-!
Shallow embedding of the blackjack counter decision engine (src/src/App.jsx):
rank/value utilities, hand evaluator, count estimator, baseline strategy
resolver and deviation resolver, together with theorems settling the frozen
claims about their behaviour.
-/

namespace Blackjack

/-- The 13-symbol rank alphabet {A,2,...,10,J,Q,K}. -/
inductive Rank
  | ace | two | three | four | five | six | seven | eight | nine
  | ten | jack | queen | king
deriving DecidableEq, Repr

/-- The rank symbol as the string used throughout the source. -/
def rankStr : Rank → String
  | .ace => "A"
  | .two => "2"
  | .three => "3"
  | .four => "4"
  | .five => "5"
  | .six => "6"
  | .seven => "7"
  | .eight => "8"
  | .nine => "9"
  | .ten => "10"
  | .jack => "J"
  | .queen => "Q"
  | .king => "K"

/-- The RANKS constant of the source (the alphabet as strings). -/
def RANKS : List String :=
  ["A", "2", "3", "4", "5", "6", "7", "8", "9", "10", "J", "Q", "K"]

/-- hiLoValue from the source: Hi-Lo counting weight of a rank string.
Any string outside the two positive membership tests falls to the final
return -1, exactly as in the source. -/
def hiLoValue (rank : String) : ℤ :=
  if rank ∈ (["2", "3", "4", "5", "6"] : List String) then 1
  else if rank ∈ (["7", "8", "9"] : List String) then 0
  else -1

/-- isTenValue from the source. -/
def isTenValue (r : Rank) : Bool :=
  r = Rank.ten || r = Rank.jack || r = Rank.queen || r = Rank.king

/-- Numeral value of a rank, modelling the parseInt calls of the source;
the parseInt branches are only reached for ranks 2..9 (ace and ten-valued
ranks are caught by earlier guards), the remaining cases are dead. -/
def rankNumeral : Rank → ℕ
  | .two => 2
  | .three => 3
  | .four => 4
  | .five => 5
  | .six => 6
  | .seven => 7
  | .eight => 8
  | .nine => 9
  | .ten => 10
  | _ => 0

/-- toDealerUpValue from the source: A is 11, ten-valued is 10, else numeral. -/
def toDealerUpValue (r : Rank) : ℕ :=
  if r = Rank.ace then 11
  else if isTenValue r then 10
  else rankNumeral r

/-- clamp from the source: Math.max(lo, Math.min(hi, n)). -/
def clamp (n lo hi : ℚ) : ℚ :=
  max lo (min hi n)

/-- The while loop of bestTotal: while total exceeds 21 and an undemoted ace
remains, subtract 10 and demote one ace; returns the final (total, aces). -/
def reduceAces (total : ℕ) : ℕ → ℕ × ℕ
  | 0 => (total, 0)
  | a + 1 => if 21 < total then reduceAces (total - 10) a else (total, a + 1)

/-- Result record of bestTotal. -/
structure HandValue where
  total : ℕ
  isSoft : Bool
deriving DecidableEq, Repr

/-- Per-card value used by the accumulation loop of bestTotal
(A as 11, ten-valued as 10, otherwise parseInt). -/
def cardVal (r : Rank) : ℕ :=
  if r = Rank.ace then 11
  else if isTenValue r then 10
  else rankNumeral r

/-- bestTotal from the source: one pass accumulates (total, aces), then the
over-21 reduction loop runs, then
isSoft = aceCount > 0 && total <= 21 && aceCount > aces. -/
def bestTotal (ranks : List Rank) : HandValue :=
  let acc := ranks.foldl
    (fun s r =>
      if r = Rank.ace then (s.1 + 11, s.2 + 1)
      else if isTenValue r then (s.1 + 10, s.2)
      else (s.1 + rankNumeral r, s.2))
    ((0, 0) : ℕ × ℕ)
  let p := reduceAces acc.1 acc.2
  let aceCount := (ranks.filter (fun r => decide (r = Rank.ace))).length
  ⟨p.1, decide (0 < aceCount) && decide (p.1 ≤ 21) && decide (p.2 < aceCount)⟩

/-- Modelled from the spec: a hand is soft iff at least one ace was never
demoted by the reduction loop and the final total is at most 21, i.e. some
ace still contributes as 11 (the source computes its own isSoft flag
differently; this definition follows the spec's words for comparison). -/
def softSpec (ranks : List Rank) : Bool :=
  let acc := ranks.foldl
    (fun s r =>
      if r = Rank.ace then (s.1 + 11, s.2 + 1)
      else if isTenValue r then (s.1 + 10, s.2)
      else (s.1 + rankNumeral r, s.2))
    ((0, 0) : ℕ × ℕ)
  let p := reduceAces acc.1 acc.2
  decide (0 < p.2) && decide (p.1 ≤ 21)

/-- isPair from the source: exactly two cards, both ten-valued or equal. -/
def isPair (hand : List Rank) : Bool :=
  match hand with
  | [a, b] => (isTenValue a && isTenValue b) || a = b
  | _ => false

/-- pairKey from the source: "10" when both cards are ten-valued, else the
first card's symbol; only invoked on pairs. -/
def pairKey (hand : List Rank) : String :=
  match hand with
  | a :: b :: _ => if isTenValue a && isTenValue b then "10" else rankStr a
  | _ => ""

/-- The capability flags record passed to the resolvers
(canSplit, canDouble, canSurrender). -/
structure Opts where
  canSplit : Bool
  canDouble : Bool
  canSurrender : Bool
deriving DecidableEq, Repr

/-- The soft-totals and hard-totals sections of baselineAction, reached when
neither the surrender section nor the pair section has returned. -/
def softHardAction (total : ℕ) (isSoft : Bool) (up : ℕ) (opts : Opts) : String :=
  if isSoft = true then
    if 20 ≤ total then "Stand"
    else if total = 19 then
      if opts.canDouble = true ∧ up = 6 then "Double" else "Stand"
    else if total = 18 then
      if opts.canDouble = true ∧ 3 ≤ up ∧ up ≤ 6 then "Double"
      else if up = 2 ∨ up = 7 ∨ up = 8 then "Stand"
      else "Hit"
    else if total = 17 then
      if opts.canDouble = true ∧ 3 ≤ up ∧ up ≤ 6 then "Double" else "Hit"
    else if total = 16 ∨ total = 15 then
      if opts.canDouble = true ∧ 4 ≤ up ∧ up ≤ 6 then "Double" else "Hit"
    else if total = 14 ∨ total = 13 then
      if opts.canDouble = true ∧ (up = 5 ∨ up = 6) then "Double" else "Hit"
    else "Hit"
  else
    if 17 ≤ total then "Stand"
    else if total ≤ 8 then "Hit"
    else if total = 9 then
      if opts.canDouble = true ∧ 3 ≤ up ∧ up ≤ 6 then "Double" else "Hit"
    else if total = 10 then
      if opts.canDouble = true ∧ 2 ≤ up ∧ up ≤ 9 then "Double" else "Hit"
    else if total = 11 then
      if opts.canDouble = true ∧ 2 ≤ up ∧ up ≤ 10 then "Double"
      else if up = 11 then "Hit" else "Double"
    else if total = 12 then
      if 4 ≤ up ∧ up ≤ 6 then "Stand" else "Hit"
    else if 13 ≤ total ∧ total ≤ 16 then
      if 2 ≤ up ∧ up ≤ 6 then "Stand" else "Hit"
    else "Hit"

/-- The pair-splitting section of baselineAction, reached when canSplit holds
and the hand is a pair; an unmatched pair key falls through to the soft/hard
sections exactly as the source's control flow does. -/
def pairAction (hand : List Rank) (total : ℕ) (isSoft : Bool) (up : ℕ)
    (opts : Opts) : String :=
  if pairKey hand = "A" then "Split"
  else if pairKey hand = "10" then "Stand"
  else if pairKey hand = "9" then
    if up ∈ ([2, 3, 4, 5, 6, 8, 9] : List ℕ) then "Split" else "Stand"
  else if pairKey hand = "8" then "Split"
  else if pairKey hand = "7" then
    if 2 ≤ up ∧ up ≤ 7 then "Split" else "Hit"
  else if pairKey hand = "6" then
    if 2 ≤ up ∧ up ≤ 6 then "Split" else "Hit"
  else if pairKey hand = "5" then
    if opts.canDouble = true ∧ 2 ≤ up ∧ up ≤ 9 then "Double" else "Hit"
  else if pairKey hand = "4" then
    if up = 5 ∨ up = 6 then "Split" else "Hit"
  else if pairKey hand = "3" ∨ pairKey hand = "2" then
    if 2 ≤ up ∧ up ≤ 7 then "Split" else "Hit"
  else softHardAction total isSoft up opts

/-- baselineAction from the source: late surrender first, then pairs, then
soft totals, then hard totals. -/
def baselineAction (hand : List Rank) (dealerUp : Rank) (opts : Opts) : String :=
  if opts.canSurrender = true ∧ hand.length = 2 ∧ (bestTotal hand).isSoft = false ∧
      (bestTotal hand).total = 16 ∧
      (toDealerUpValue dealerUp = 9 ∨ toDealerUpValue dealerUp = 10 ∨
        toDealerUpValue dealerUp = 11) then "Surrender"
  else if opts.canSurrender = true ∧ hand.length = 2 ∧
      (bestTotal hand).isSoft = false ∧ (bestTotal hand).total = 15 ∧
      toDealerUpValue dealerUp = 10 then "Surrender"
  else if opts.canSplit = true ∧ isPair hand = true then
    pairAction hand (bestTotal hand).total (bestTotal hand).isSoft
      (toDealerUpValue dealerUp) opts
  else softHardAction (bestTotal hand).total (bestTotal hand).isSoft
    (toDealerUpValue dealerUp) opts

/-- Result record of applyDeviations: final action plus explanation notes. -/
structure DevResult where
  action : String
  notes : List String
deriving DecidableEq, Repr

/-- applyDeviations from the source: the chain of nine count-indexed
overrides; each guard additionally requires the baseline to differ from the
override before returning, and the fallthrough returns the baseline with no
notes. -/
def applyDeviations (base : String) (hand : List Rank) (dealerUp : Rank)
    (tc : ℤ) (opts : Opts) : DevResult :=
  if (bestTotal hand).isSoft = false ∧ (bestTotal hand).total = 16 ∧
      toDealerUpValue dealerUp = 10 ∧ 0 ≤ tc ∧ base ≠ "Stand" then
    ⟨"Stand", ["Deviation: 16 vs 10 → Stand at TC ≥ 0"]⟩
  else if (bestTotal hand).isSoft = false ∧ (bestTotal hand).total = 15 ∧
      toDealerUpValue dealerUp = 10 ∧ 4 ≤ tc ∧ base ≠ "Stand" then
    ⟨"Stand", ["Deviation: 15 vs 10 → Stand at TC ≥ +4"]⟩
  else if (bestTotal hand).isSoft = false ∧ (bestTotal hand).total = 16 ∧
      toDealerUpValue dealerUp = 9 ∧ 5 ≤ tc ∧ base ≠ "Stand" then
    ⟨"Stand", ["Deviation: 16 vs 9 → Stand at TC ≥ +5"]⟩
  else if (bestTotal hand).isSoft = false ∧ (bestTotal hand).total = 16 ∧
      toDealerUpValue dealerUp = 11 ∧ 3 ≤ tc ∧ base ≠ "Stand" then
    ⟨"Stand", ["Deviation: 16 vs A → Stand at TC ≥ +3"]⟩
  else if (bestTotal hand).isSoft = false ∧ (bestTotal hand).total = 12 ∧
      toDealerUpValue dealerUp = 3 ∧ 1 ≤ tc ∧ base ≠ "Stand" then
    ⟨"Stand", ["Deviation: 12 vs 3 → Stand at TC ≥ +1"]⟩
  else if (bestTotal hand).isSoft = false ∧ (bestTotal hand).total = 12 ∧
      toDealerUpValue dealerUp = 2 ∧ 3 ≤ tc ∧ base ≠ "Stand" then
    ⟨"Stand", ["Deviation: 12 vs 2 → Stand at TC ≥ +3"]⟩
  else if opts.canDouble = true ∧ (bestTotal hand).isSoft = false ∧
      (bestTotal hand).total = 10 ∧ toDealerUpValue dealerUp = 10 ∧ 4 ≤ tc ∧
      base ≠ "Double" then
    ⟨"Double", ["Deviation: 10 vs 10 → Double at TC ≥ +4"]⟩
  else if opts.canDouble = true ∧ (bestTotal hand).isSoft = false ∧
      (bestTotal hand).total = 10 ∧ toDealerUpValue dealerUp = 11 ∧ 3 ≤ tc ∧
      base ≠ "Double" then
    ⟨"Double", ["Deviation: 10 vs A → Double at TC ≥ +3"]⟩
  else if opts.canDouble = true ∧ (bestTotal hand).isSoft = false ∧
      (bestTotal hand).total = 11 ∧ toDealerUpValue dealerUp = 11 ∧ 0 ≤ tc ∧
      base ≠ "Double" then
    ⟨"Double", ["Deviation: 11 vs A → Double at TC ≥ 0"]⟩
  else ⟨base, []⟩

/-- Modelled from the spec: one index play of the deviation table — whether
the override needs canDouble, the hard total, the dealer upcard value, the
true-count threshold, the override action and the explanatory note. -/
structure DevRule where
  needsDouble : Bool
  total : ℕ
  up : ℕ
  threshold : ℤ
  override : String
  note : String
deriving DecidableEq, Repr

/-- Modelled from the spec: the fixed ordered list of nine index plays. -/
def deviationRules : List DevRule :=
  [⟨false, 16, 10, 0, "Stand", "Deviation: 16 vs 10 → Stand at TC ≥ 0"⟩,
   ⟨false, 15, 10, 4, "Stand", "Deviation: 15 vs 10 → Stand at TC ≥ +4"⟩,
   ⟨false, 16, 9, 5, "Stand", "Deviation: 16 vs 9 → Stand at TC ≥ +5"⟩,
   ⟨false, 16, 11, 3, "Stand", "Deviation: 16 vs A → Stand at TC ≥ +3"⟩,
   ⟨false, 12, 3, 1, "Stand", "Deviation: 12 vs 3 → Stand at TC ≥ +1"⟩,
   ⟨false, 12, 2, 3, "Stand", "Deviation: 12 vs 2 → Stand at TC ≥ +3"⟩,
   ⟨true, 10, 10, 4, "Double", "Deviation: 10 vs 10 → Double at TC ≥ +4"⟩,
   ⟨true, 10, 11, 3, "Double", "Deviation: 10 vs A → Double at TC ≥ +3"⟩,
   ⟨true, 11, 11, 0, "Double", "Deviation: 11 vs A → Double at TC ≥ 0"⟩]

/-- Modelled from the spec: a rule fires when its capability requirement
holds, the hand is a hard total matching the rule, the upcard matches, the
count meets or exceeds the threshold, and the baseline differs from the
override. -/
def ruleFires (r : DevRule) (base : String) (hand : List Rank)
    (dealerUp : Rank) (tc : ℤ) (opts : Opts) : Prop :=
  (r.needsDouble = true → opts.canDouble = true) ∧
    (bestTotal hand).isSoft = false ∧ (bestTotal hand).total = r.total ∧
    toDealerUpValue dealerUp = r.up ∧ r.threshold ≤ tc ∧ base ≠ r.override

instance (r : DevRule) (base : String) (hand : List Rank) (dealerUp : Rank)
    (tc : ℤ) (opts : Opts) : Decidable (ruleFires r base hand dealerUp tc opts) := by
  unfold ruleFires
  infer_instance

/-- Modelled from the spec: first-match-wins evaluation of an ordered rule
list; a firing rule returns its override with a one-element notes sequence,
no match returns the baseline with empty notes. -/
def runRules (base : String) (hand : List Rank) (dealerUp : Rank) (tc : ℤ)
    (opts : Opts) : List DevRule → DevResult
  | [] => ⟨base, []⟩
  | r :: rs =>
    if ruleFires r base hand dealerUp tc opts then ⟨r.override, [r.note]⟩
    else runRules base hand dealerUp tc opts rs

/-- totalCards from the source: decks times 52. -/
def totalCards (decks : ℕ) : ℕ :=
  decks * 52

/-- decksRemaining from the source: (totalCards - seen.length) / 52 clamped
to [0.25, decks]. -/
def decksRemaining (decks : ℕ) (seen : List String) : ℚ :=
  clamp (((totalCards decks : ℚ) - (seen.length : ℚ)) / 52) (1 / 4) (decks : ℚ)

/-- trueCount from the source: runningCount / decksRemaining, Math.ceil when
negative and Math.floor otherwise (truncation toward zero). -/
def trueCount (rc : ℤ) (dr : ℚ) : ℤ :=
  if (rc : ℚ) / dr < 0 then ⌈(rc : ℚ) / dr⌉ else ⌊(rc : ℚ) / dr⌋

/-! Theorems settling the claims. -/

/-- C1: the claim states isSoft is true iff some ace still contributes as 11
and the final total is at most 21, so [A,6] is soft 17. The code evaluates
[A,6] to total 17 with isSoft = false, while the spec-modelled soft flag is
true there; on [A,6,K], where the only ace was demoted, the code returns
isSoft = true while the spec-modelled flag is false. The code's condition
aceCount > aces tests that some ace was demoted, the inverse of the claim. -/
theorem c1_isSoft_flag_inverted :
    bestTotal [Rank.ace, Rank.six] = ⟨17, false⟩ ∧
    softSpec [Rank.ace, Rank.six] = true ∧
    bestTotal [Rank.ace, Rank.six, Rank.king] = ⟨17, true⟩ ∧
    softSpec [Rank.ace, Rank.six, Rank.king] = false := by
  refine ⟨rfl, rfl, rfl, rfl⟩

/-- C10: the hand evaluator on the empty hand returns total 0 and
isSoft = false. -/
theorem c10_empty_hand :
    bestTotal ([] : List Rank) = ⟨0, false⟩ := rfl

/-- C7: the claim says Surrender is returned exactly for hard 16 vs 9/10/A
and hard 15 vs 10. The code surrenders the hand [A,5] against dealer 10,
yet [A,5] totals 16 with its ace counted as 11 (the spec-modelled soft flag
is true), i.e. a soft 16, because the code's isSoft flag misclassifies it
as hard. -/
theorem c7_surrenders_soft_sixteen :
    baselineAction [Rank.ace, Rank.five] Rank.ten ⟨true, true, true⟩ = "Surrender" ∧
    (bestTotal [Rank.ace, Rank.five]).total = 16 ∧
    softSpec [Rank.ace, Rank.five] = true ∧
    (bestTotal [Rank.ace, Rank.five]).isSoft = false := by
  refine ⟨rfl, rfl, rfl, rfl⟩

/-- C3 counterexample: the pair hand [8,8] versus dealer 10 at true count 0
with baseline Split is overridden to Stand with a nonempty notes sequence,
so pairs do deviate. -/
theorem c3_pair_deviates :
    applyDeviations "Split" [Rank.eight, Rank.eight] Rank.ten 0 ⟨true, true, true⟩ =
      ⟨"Stand", ["Deviation: 16 vs 10 → Stand at TC ≥ 0"]⟩ := rfl

/-- C3 amended: the deviation resolver leaves the action and notes unchanged
exactly on hands whose evaluator soft flag is true; hands with the flag
false, pairs included, may still deviate. -/
theorem c3_soft_flag_never_deviates (base : String) (hand : List Rank)
    (dealerUp : Rank) (tc : ℤ) (opts : Opts)
    (h : (bestTotal hand).isSoft = true) :
    applyDeviations base hand dealerUp tc opts = ⟨base, []⟩ := by
  unfold applyDeviations
  split_ifs <;> simp_all

/-- C3 witness: the soft hand [A,A] never deviates. -/
theorem c3_soft_flag_never_deviates_witness :
    applyDeviations "Hit" [Rank.ace, Rank.ace] Rank.ten 5 ⟨true, true, true⟩ =
      ⟨"Hit", []⟩ :=
  c3_soft_flag_never_deviates "Hit" [Rank.ace, Rank.ace] Rank.ten 5
    ⟨true, true, true⟩ (by decide)

/-- C4 counterexample: the out-of-alphabet rank "X" is not rejected; the
counting-weight function silently returns -1 for it instead of failing with
an InvalidRankError (no error path exists in the code). -/
theorem c4_no_invalid_rank_error :
    ("X" ∉ RANKS) ∧ hiLoValue "X" = -1 := by
  refine ⟨by decide, rfl⟩

/-- C4 amended: hiLoValue is total; it returns +1 on ranks 2-6, 0 on 7-9,
-1 on 10/J/Q/K/A, and also -1 on every string outside the 13-symbol
alphabet, silently coercing out-of-alphabet inputs. -/
theorem c4_hiLoValue_total (r : String) :
    (r ∈ (["2", "3", "4", "5", "6"] : List String) → hiLoValue r = 1) ∧
    (r ∈ (["7", "8", "9"] : List String) → hiLoValue r = 0) ∧
    (r ∈ (["10", "J", "Q", "K", "A"] : List String) → hiLoValue r = -1) ∧
    (r ∉ RANKS → hiLoValue r = -1) := by
  refine ⟨fun h => ?_, fun h => ?_, fun h => ?_, fun h => ?_⟩
  · unfold hiLoValue
    rw [if_pos h]
  · unfold hiLoValue
    rw [if_neg, if_pos h]
    intro hlow
    fin_cases hlow <;> simp_all
  · fin_cases h <;> rfl
  · unfold hiLoValue
    rw [if_neg, if_neg]
    · intro hmid
      exact h (by fin_cases hmid <;> decide)
    · intro hlow
      exact h (by fin_cases hlow <;> decide)

/-- C4 witness: the amended statement at the in-alphabet rank "5" and the
out-of-alphabet rank "X". -/
theorem c4_hiLoValue_total_witness :
    hiLoValue "5" = 1 ∧ hiLoValue "X" = -1 :=
  ⟨(c4_hiLoValue_total "5").1 (by decide), (c4_hiLoValue_total "X").2.2.2 (by decide)⟩

/-- The accumulation pass of bestTotal computes the sum of card values and
the number of aces, independent of order. -/
theorem bestTotal_foldl (l : List Rank) (s : ℕ × ℕ) :
    l.foldl
      (fun s r =>
        if r = Rank.ace then (s.1 + 11, s.2 + 1)
        else if isTenValue r then (s.1 + 10, s.2)
        else (s.1 + rankNumeral r, s.2)) s =
    (s.1 + (l.map cardVal).sum,
      s.2 + (l.filter (fun r => decide (r = Rank.ace))).length) := by
  induction l generalizing s with
  | nil => simp
  | cons a l ih =>
    by_cases ha : a = Rank.ace
    · simp [ha, ih, cardVal, Prod.ext_iff]
      omega
    · by_cases hten : isTenValue a
      · simp [ha, hten, ih, cardVal, Prod.ext_iff]
        omega
      · simp [ha, hten, ih, cardVal, Prod.ext_iff]
        omega

/-- C9: the hand evaluator is permutation-invariant — two hands that are
permutations of the same multiset of ranks evaluate to the same total and
soft flag. -/
theorem c9_bestTotal_perm_invariant (l₁ l₂ : List Rank) (h : l₁.Perm l₂) :
    bestTotal l₁ = bestTotal l₂ := by
  have hsum : (l₁.map cardVal).sum = (l₂.map cardVal).sum :=
    (h.map cardVal).sum_eq
  have hlen : (l₁.filter (fun r => decide (r = Rank.ace))).length =
      (l₂.filter (fun r => decide (r = Rank.ace))).length :=
    (h.filter _).length_eq
  simp only [bestTotal, bestTotal_foldl, hsum, hlen]

/-- C9 witness: the two orderings of the hand [A,6] evaluate identically. -/
theorem c9_bestTotal_perm_invariant_witness :
    bestTotal [Rank.ace, Rank.six] = bestTotal [Rank.six, Rank.ace] :=
  c9_bestTotal_perm_invariant _ _ (List.Perm.swap Rank.six Rank.ace [])

/-- C5: the true count truncates the quotient toward zero — it is the floor
when the quotient is non-negative and the ceiling when negative, its
magnitude is the integer part of the magnitude of the quotient, and the two
examples of the claim hold: -3 over 2 gives -1 and 7 over 2 gives 3. -/
theorem c5_trueCount_truncates (rc : ℤ) (dr : ℚ) (_h : 0 < dr) :
    (0 ≤ (rc : ℚ) / dr → trueCount rc dr = ⌊(rc : ℚ) / dr⌋) ∧
    ((rc : ℚ) / dr < 0 → trueCount rc dr = ⌈(rc : ℚ) / dr⌉) ∧
    |(trueCount rc dr : ℚ)| ≤ |(rc : ℚ) / dr| ∧
    |(rc : ℚ) / dr| < |(trueCount rc dr : ℚ)| + 1 ∧
    trueCount (-3) 2 = -1 ∧ trueCount 7 2 = 3 := by
  refine ⟨fun h0 => ?_, fun h0 => ?_, ?_, ?_, ?_, ?_⟩
  · rw [trueCount, if_neg (not_lt.mpr h0)]
  · rw [trueCount, if_pos h0]
  · rcases lt_or_le ((rc : ℚ) / dr) 0 with hq | hq
    · rw [trueCount, if_pos hq]
      have h1 : ((⌈(rc : ℚ) / dr⌉ : ℤ) : ℚ) ≤ 0 := by
        exact_mod_cast Int.ceil_le.mpr (by exact_mod_cast hq.le)
      have h2 : (rc : ℚ) / dr ≤ (⌈(rc : ℚ) / dr⌉ : ℚ) := Int.le_ceil _
      rw [abs_of_nonpos h1, abs_of_nonpos hq.le]
      linarith
    · rw [trueCount, if_neg (not_lt.mpr hq)]
      have h1 : (0 : ℚ) ≤ ((⌊(rc : ℚ) / dr⌋ : ℤ) : ℚ) := by
        exact_mod_cast Int.floor_nonneg.mpr hq
      have h2 : ((⌊(rc : ℚ) / dr⌋ : ℤ) : ℚ) ≤ (rc : ℚ) / dr := Int.floor_le _
      rw [abs_of_nonneg h1, abs_of_nonneg hq]
      linarith
  · rcases lt_or_le ((rc : ℚ) / dr) 0 with hq | hq
    · rw [trueCount, if_pos hq]
      have h1 : ((⌈(rc : ℚ) / dr⌉ : ℤ) : ℚ) ≤ 0 := by
        exact_mod_cast Int.ceil_le.mpr (by exact_mod_cast hq.le)
      have h2 : ((⌈(rc : ℚ) / dr⌉ : ℤ) : ℚ) < (rc : ℚ) / dr + 1 :=
        Int.ceil_lt_add_one _
      rw [abs_of_nonpos h1, abs_of_nonpos hq.le]
      linarith
    · rw [trueCount, if_neg (not_lt.mpr hq)]
      have h1 : (0 : ℚ) ≤ ((⌊(rc : ℚ) / dr⌋ : ℤ) : ℚ) := by
        exact_mod_cast Int.floor_nonneg.mpr hq
      have h2 : (rc : ℚ) / dr < ((⌊(rc : ℚ) / dr⌋ : ℤ) : ℚ) + 1 :=
        Int.lt_floor_add_one _
      rw [abs_of_nonneg h1, abs_of_nonneg hq]
      linarith
  · rw [trueCount, if_pos (by norm_num)]
    rw [Int.ceil_eq_iff]
    constructor <;> norm_num
  · rw [trueCount, if_neg (by norm_num)]
    rw [Int.floor_eq_iff]
    constructor <;> norm_num

/-- C5 witness: the truncation facts at running count 7 and two decks
remaining. -/
theorem c5_trueCount_truncates_witness :
    trueCount 7 2 = 3 :=
  (c5_trueCount_truncates 7 2 (by norm_num)).2.2.2.2.2

/-- C6: for any configured deck count in 1..8 and any seen-cards sequence,
the decks-remaining estimate stays in [1/4, decks], is strictly positive
(so the true-count division never divides by zero), and equals exactly 1/4
when every card of the shoe has been seen. -/
theorem c6_decksRemaining_clamped (decks : ℕ) (seen : List String)
    (h1 : 1 ≤ decks) (_h2 : decks ≤ 8) :
    (1 / 4 : ℚ) ≤ decksRemaining decks seen ∧
    decksRemaining decks seen ≤ (decks : ℚ) ∧
    0 < decksRemaining decks seen ∧
    (seen.length = totalCards decks → decksRemaining decks seen = 1 / 4) := by
  have hd : (1 : ℚ) ≤ (decks : ℚ) := by exact_mod_cast h1
  unfold decksRemaining clamp
  refine ⟨le_max_left _ _, max_le (by linarith) (min_le_left _ _),
    lt_of_lt_of_le (by norm_num) (le_max_left _ _), fun hlen => ?_⟩
  rw [hlen]
  simp only [sub_self, zero_div]
  rw [min_eq_right (by linarith : (0 : ℚ) ≤ (decks : ℚ)),
    max_eq_left (by norm_num : (0 : ℚ) ≤ 1 / 4)]

/-- C6 witness: one deck, all 52 cards seen — the estimate clamps to 1/4. -/
theorem c6_decksRemaining_clamped_witness :
    decksRemaining 1 (List.replicate 52 "2") = 1 / 4 :=
  (c6_decksRemaining_clamped 1 (List.replicate 52 "2") (by decide)
    (by decide)).2.2.2 (by decide)

set_option maxHeartbeats 1600000 in
/-- With canDouble false, the soft/hard sections return Double only from
the hard-11 fallthrough, i.e. on a non-soft total of 11 against a non-ace
upcard. -/
theorem softHardAction_double_of_not_canDouble (total : ℕ) (isSoft : Bool)
    (up : ℕ) (opts : Opts) (hcd : opts.canDouble = false)
    (hd : softHardAction total isSoft up opts = "Double") :
    isSoft = false ∧ total = 11 ∧ up ≠ 11 := by
  unfold softHardAction at hd
  split_ifs at hd
  all_goals try exact absurd hd (by decide)
  all_goals simp_all

set_option maxHeartbeats 1600000 in
/-- With canDouble false, the pair section returns Double only via its
fallthrough into the soft/hard sections, hence only on hard 11 against a
non-ace upcard. -/
theorem pairAction_double_of_not_canDouble (hand : List Rank) (total : ℕ)
    (isSoft : Bool) (up : ℕ) (opts : Opts) (hcd : opts.canDouble = false)
    (hd : pairAction hand total isSoft up opts = "Double") :
    isSoft = false ∧ total = 11 ∧ up ≠ 11 := by
  unfold pairAction at hd
  split_ifs at hd
  all_goals try exact (softHardAction_double_of_not_canDouble total isSoft up
    opts hcd hd)
  all_goals try exact absurd hd (by decide)
  all_goals simp_all

set_option maxHeartbeats 1600000 in
/-- C2: the baseline resolver returns Double for hard 11 versus dealer 5
even though canDouble is false (hand [2,4,5], three cards), and with
canDouble false this hard-11 fallthrough against a non-ace upcard is the
only way a Double can be produced — so the claim that every Double branch
is gated by canDouble fails precisely at hard 11. -/
theorem c2_double_without_canDouble :
    baselineAction [Rank.two, Rank.four, Rank.five] Rank.five
      ⟨true, false, true⟩ = "Double" ∧
    ∀ (hand : List Rank) (dealerUp : Rank) (opts : Opts),
      opts.canDouble = false → baselineAction hand dealerUp opts = "Double" →
      (bestTotal hand).isSoft = false ∧ (bestTotal hand).total = 11 ∧
        toDealerUpValue dealerUp ≠ 11 := by
  refine ⟨rfl, fun hand dealerUp opts hcd hd => ?_⟩
  unfold baselineAction at hd
  split_ifs at hd
  all_goals try exact (pairAction_double_of_not_canDouble hand
    (bestTotal hand).total (bestTotal hand).isSoft
    (toDealerUpValue dealerUp) opts hcd hd)
  all_goals try exact (softHardAction_double_of_not_canDouble
    (bestTotal hand).total (bestTotal hand).isSoft
    (toDealerUpValue dealerUp) opts hcd hd)
  all_goals exact absurd hd (by decide)

/-- C2 witness: the general part of the theorem applied at the hand [2,4,5]
against dealer 5 with canDouble false. -/
theorem c2_double_without_canDouble_witness :
    (bestTotal [Rank.two, Rank.four, Rank.five]).isSoft = false ∧
    (bestTotal [Rank.two, Rank.four, Rank.five]).total = 11 ∧
    toDealerUpValue Rank.five ≠ 11 :=
  c2_double_without_canDouble.2 [Rank.two, Rank.four, Rank.five] Rank.five
    ⟨true, false, true⟩ rfl rfl

/-- C8: the deviation resolver is exactly first-match-wins evaluation of
the fixed ordered table of nine index plays — a rule fires only when its
capability requirement holds, the hand is a matching hard total, the count
meets the threshold and the baseline differs from the override, in which
case the override is returned with the rule's single note; with no match
the baseline comes back with empty notes. -/
theorem c8_applyDeviations_first_match :
    deviationRules.length = 9 ∧
    ∀ (base : String) (hand : List Rank) (dealerUp : Rank) (tc : ℤ)
      (opts : Opts),
      applyDeviations base hand dealerUp tc opts =
        runRules base hand dealerUp tc opts deviationRules := by
  refine ⟨rfl, fun base hand dealerUp tc opts => ?_⟩
  simp only [applyDeviations, runRules, deviationRules, ruleFires,
    Bool.false_eq_true, false_implies, true_and, eq_self_iff_true,
    true_implies]

end Blackjack
